import Mathlib

/-!
# Verification of the finance-agent profile store and response-cleaning logic

Shallow embedding of the repository's core logic:

* `src/services/finance_chat.py` — `convert_decimals_to_float`,
  `_parse_slm_response`, `analyze_user_finances`;
* `src/database/finance_memory.py` — `FinanceMemoryManager`
  (`store_finance_profile`, `get_finance_profile`, `update_profile_insights`,
  `delete_profile`, `get_profile_history`);
* `src/main.py` — `_parse_llm_json`, `_remove_nulls`.

Python values are modelled by the mutual inductive `PyVal` / `PyList` /
`PyDict` (dicts as ordered association lists, matching insertion order).
Python `str` is modelled as `List Char` where character-level slicing
matters (the response cleaners), and as `String` where only equality is
used (user ids).  The MongoDB collection is modelled as an ordered list of
documents with explicit object-id allocation; `find_one`, `replace_one`,
`update_one` and `delete_one` act on the first matching document.  The
wall clock (`datetime.utcnow()`) is passed in explicitly as a `Nat`
parameter `now`, and the external `json.loads` is a parameter
`loads : List Char → Option PyVal` assumed insensitive to surrounding
whitespace (its documented behaviour).
-/

/- A Python runtime value, as the repository manipulates them: `None`,
booleans, ints, `Decimal`, `float` (both carried as rationals — the claims
verified here are structural and do not depend on rounding), strings,
lists, tuples and dicts. -/
mutual

inductive PyVal : Type where
  | none : PyVal
  | bool (b : Bool) : PyVal
  | int (n : Int) : PyVal
  | dec (q : ℚ) : PyVal
  | float (q : ℚ) : PyVal
  | str (s : String) : PyVal
  | list (xs : PyList) : PyVal
  | tuple (xs : PyList) : PyVal
  | dict (kvs : PyDict) : PyVal
  deriving DecidableEq

inductive PyList : Type where
  | nil : PyList
  | cons (v : PyVal) (tl : PyList) : PyList
  deriving DecidableEq

inductive PyDict : Type where
  | nil : PyDict
  | cons (k : String) (v : PyVal) (tl : PyDict) : PyDict
  deriving DecidableEq

end

namespace PyDict

/-- `d[k]` lookup on a dict: first binding wins. -/
def lookup (kvs : PyDict) (k : String) : Option PyVal :=
  match kvs with
  | .nil => Option.none
  | .cons k' v tl => if k' = k then Option.some v else lookup tl k

/-- Number of entries (`len(d)`). -/
def length : PyDict → Nat
  | .nil => 0
  | .cons _ _ tl => length tl + 1

end PyDict

namespace PyList

/-- Number of elements (`len(l)`). -/
def length : PyList → Nat
  | .nil => 0
  | .cons _ tl => length tl + 1

/-- Element membership (`x in l`). -/
def mem (x : PyVal) : PyList → Bool
  | .nil => false
  | .cons v tl => v = x || mem x tl

end PyList

/- `convert_decimals_to_float` (src/services/finance_chat.py lines 15-34):
recursively convert `Decimal` objects to `float`, descending into dicts,
lists and tuples, and leaving every other value unchanged. -/
mutual

def convert_decimals_to_float : PyVal → PyVal
  | .dec q => .float q
  | .dict kvs => .dict (convDict kvs)
  | .list xs => .list (convList xs)
  | .tuple xs => .tuple (convList xs)
  | v => v

def convDict : PyDict → PyDict
  | .nil => .nil
  | .cons k v tl => .cons k (convert_decimals_to_float v) (convDict tl)

def convList : PyList → PyList
  | .nil => .nil
  | .cons v tl => .cons (convert_decimals_to_float v) (convList tl)

end

/- `noDecimal v` holds when no `Decimal` occurs anywhere inside `v`. -/
mutual

def noDecimal : PyVal → Bool
  | .dec _ => false
  | .dict kvs => noDecimalDict kvs
  | .list xs => noDecimalList xs
  | .tuple xs => noDecimalList xs
  | _ => true

def noDecimalDict : PyDict → Bool
  | .nil => true
  | .cons _ v tl => noDecimal v && noDecimalDict tl

def noDecimalList : PyList → Bool
  | .nil => true
  | .cons v tl => noDecimal v && noDecimalList tl

end

mutual

theorem noDecimal_conv : ∀ v : PyVal, noDecimal (convert_decimals_to_float v) = true
  | .none => rfl
  | .bool _ => rfl
  | .int _ => rfl
  | .dec _ => rfl
  | .float _ => rfl
  | .str _ => rfl
  | .dict kvs => by
      simp only [convert_decimals_to_float, noDecimal]
      exact noDecimalDict_conv kvs
  | .list xs => by
      simp only [convert_decimals_to_float, noDecimal]
      exact noDecimalList_conv xs
  | .tuple xs => by
      simp only [convert_decimals_to_float, noDecimal]
      exact noDecimalList_conv xs

theorem noDecimalDict_conv : ∀ kvs : PyDict, noDecimalDict (convDict kvs) = true
  | .nil => rfl
  | .cons k v tl => by
      simp only [convDict, noDecimalDict, Bool.and_eq_true]
      exact ⟨noDecimal_conv v, noDecimalDict_conv tl⟩

theorem noDecimalList_conv : ∀ xs : PyList, noDecimalList (convList xs) = true
  | .nil => rfl
  | .cons v tl => by
      simp only [convList, noDecimalList, Bool.and_eq_true]
      exact ⟨noDecimal_conv v, noDecimalList_conv tl⟩

end

mutual

theorem conv_fix_of_noDecimal :
    ∀ v : PyVal, noDecimal v = true → convert_decimals_to_float v = v
  | .none, _ => rfl
  | .bool _, _ => rfl
  | .int _, _ => rfl
  | .float _, _ => rfl
  | .str _, _ => rfl
  | .dict kvs, h => by
      simp only [noDecimal] at h
      simp only [convert_decimals_to_float, convDict_fix_of_noDecimal kvs h]
  | .list xs, h => by
      simp only [noDecimal] at h
      simp only [convert_decimals_to_float, convList_fix_of_noDecimal xs h]
  | .tuple xs, h => by
      simp only [noDecimal] at h
      simp only [convert_decimals_to_float, convList_fix_of_noDecimal xs h]

theorem convDict_fix_of_noDecimal :
    ∀ kvs : PyDict, noDecimalDict kvs = true → convDict kvs = kvs
  | .nil, _ => rfl
  | .cons k v tl, h => by
      simp only [noDecimalDict, Bool.and_eq_true] at h
      simp only [convDict, conv_fix_of_noDecimal v h.1, convDict_fix_of_noDecimal tl h.2]

theorem convList_fix_of_noDecimal :
    ∀ xs : PyList, noDecimalList xs = true → convList xs = xs
  | .nil, _ => rfl
  | .cons v tl, h => by
      simp only [noDecimalList, Bool.and_eq_true] at h
      simp only [convList, conv_fix_of_noDecimal v h.1, convList_fix_of_noDecimal tl h.2]

end

/-- **C10**: `convert_decimals_to_float` is idempotent — applying it twice
equals applying it once on every nested value — and its output contains no
`Decimal` anywhere. -/
theorem convert_decimals_to_float_idem_noDecimal (v : PyVal) :
    convert_decimals_to_float (convert_decimals_to_float v) = convert_decimals_to_float v ∧
    noDecimal (convert_decimals_to_float v) = true :=
  ⟨conv_fix_of_noDecimal _ (noDecimal_conv v), noDecimal_conv v⟩

/-- Python truthiness (`bool(v)`), used by `additional_insights or {}` and by
`[current] if current else []`. -/
def pyTruthy : PyVal → Bool
  | .none => false
  | .bool b => b
  | .int n => decide (n ≠ 0)
  | .dec q => decide (q ≠ 0)
  | .float q => decide (q ≠ 0)
  | .str s => decide (s ≠ "")
  | .list xs => decide (xs.length ≠ 0)
  | .tuple xs => decide (xs.length ≠ 0)
  | .dict kvs => decide (kvs.length ≠ 0)

/-- Python `a or b`: `a` when truthy, else `b`. -/
def pyOr (a b : PyVal) : PyVal := if pyTruthy a then a else b

/-- Whether a value is a Python dict (`isinstance(v, dict)`). -/
def isDict : PyVal → Bool
  | .dict _ => true
  | _ => false

/-- One document of the `finance_memory` collection, laid out as
`store_finance_profile` builds it (src/database/finance_memory.py lines
71-79), plus the MongoDB-allocated `_id` (`oid`). -/
structure ProfileDoc where
  oid : Nat
  user_id : String
  finance_profile : PyVal
  additional_insights : PyVal
  profile_summary : PyVal
  created_at : Nat
  updated_at : Nat
  version : Int
  deriving DecidableEq

/-- The `finance_memory` collection: documents in insertion order plus the
next object id to allocate. -/
structure DB where
  docs : List ProfileDoc
  nextId : Nat
  deriving DecidableEq

/-- `collection.find_one({"user_id": uid})`: first document matching. -/
def findOne (docs : List ProfileDoc) (uid : String) : Option ProfileDoc :=
  match docs with
  | [] => Option.none
  | d :: tl => if d.user_id = uid then Option.some d else findOne tl uid

/-- `collection.replace_one({"user_id": uid}, repl)`: replace the first
matching document, keeping its `_id` (the replacement carries no `_id`). -/
def replaceOne (docs : List ProfileDoc) (uid : String) (repl : ProfileDoc) :
    List ProfileDoc :=
  match docs with
  | [] => []
  | d :: tl =>
    if d.user_id = uid then { repl with oid := d.oid } :: tl
    else d :: replaceOne tl uid repl

/-- `collection.update_one({"user_id": uid}, {"$set": {additional_insights,
updated_at}, "$inc": {version: 1}})` (src/database/finance_memory.py lines
135-144).  Returns `modified_count` and the new collection; the `$inc` of
`version` guarantees a matched document is always modified, so the count is
1 exactly when a match exists. -/
def updateOneInsights (docs : List ProfileDoc) (uid : String)
    (new_insights : PyVal) (now : Nat) : Nat × List ProfileDoc :=
  match docs with
  | [] => (0, [])
  | d :: tl =>
    if d.user_id = uid then
      (1, { d with
            additional_insights := new_insights
            updated_at := now
            version := d.version + 1 } :: tl)
    else
      let r := updateOneInsights tl uid new_insights now
      (r.1, d :: r.2)

/-- `collection.delete_one({"user_id": uid})`: remove the first matching
document, returning `deleted_count`. -/
def deleteOne (docs : List ProfileDoc) (uid : String) : Nat × List ProfileDoc :=
  match docs with
  | [] => (0, [])
  | d :: tl =>
    if d.user_id = uid then (1, tl)
    else
      let r := deleteOne tl uid
      (r.1, d :: r.2)

/-- `FinanceMemoryManager.store_finance_profile` (src/database/
finance_memory.py lines 56-98): build the document with `version = 1` and
`created_at = updated_at = now`; if a document for `user_id` exists,
bump `version` to `existing.version + 1`, keep `existing.created_at`,
replace the document and return `str(existing["_id"])`; otherwise insert
and return the new id. -/
def store_finance_profile (uid : String)
    (profile_data additional_insights profile_summary : PyVal)
    (now : Nat) (db : DB) : String × DB :=
  let document : ProfileDoc :=
    { oid := db.nextId, user_id := uid, finance_profile := profile_data,
      additional_insights := pyOr additional_insights (.dict .nil),
      profile_summary := profile_summary,
      created_at := now, updated_at := now, version := 1 }
  match findOne db.docs uid with
  | Option.some existing =>
      let document := { document with
                        version := existing.version + 1
                        created_at := existing.created_at }
      (toString existing.oid, { db with docs := replaceOne db.docs uid document })
  | Option.none =>
      (toString db.nextId, { docs := db.docs ++ [document], nextId := db.nextId + 1 })

/-- `FinanceMemoryManager.get_finance_profile` (lines 100-111). -/
def get_finance_profile (uid : String) (db : DB) : Option ProfileDoc :=
  findOne db.docs uid

/-- `FinanceMemoryManager.update_profile_insights` (lines 123-149):
`modified_count > 0`. -/
def update_profile_insights (uid : String) (new_insights : PyVal) (now : Nat)
    (db : DB) : Bool × DB :=
  let r := updateOneInsights db.docs uid new_insights now
  (decide (r.1 > 0), { db with docs := r.2 })

/-- `FinanceMemoryManager.delete_profile` (lines 151-167): `deleted_count > 0`. -/
def delete_profile (uid : String) (db : DB) : Bool × DB :=
  let r := deleteOne db.docs uid
  (decide (r.1 > 0), { db with docs := r.2 })

/-- `FinanceMemoryManager.get_profile_history` (lines 169-184):
`[current] if current else []`, ignoring `limit` (a found document always
carries `_id`, hence is a nonempty — truthy — dict). -/
def get_profile_history (uid : String) (limit : Int) (db : DB) :
    List ProfileDoc :=
  match get_finance_profile uid db with
  | Option.some current => [current]
  | Option.none => []

theorem findOne_append_of_none {docs : List ProfileDoc} {uid : String}
    (h : findOne docs uid = Option.none) (l : List ProfileDoc) :
    findOne (docs ++ l) uid = findOne l uid := by
  induction docs with
  | nil => simp
  | cons d tl ih =>
      simp only [findOne] at h ⊢
      by_cases hd : d.user_id = uid
      · simp [hd] at h
      · simp only [hd, if_false] at h ⊢
        exact ih h

theorem findOne_replaceOne {docs : List ProfileDoc} {uid : String}
    {d : ProfileDoc} (h : findOne docs uid = Option.some d)
    (repl : ProfileDoc) (hrepl : repl.user_id = uid) :
    findOne (replaceOne docs uid repl) uid = Option.some { repl with oid := d.oid } := by
  induction docs with
  | nil => simp [findOne] at h
  | cons e tl ih =>
      simp only [findOne, replaceOne] at h ⊢
      by_cases he : e.user_id = uid
      · simp only [he, if_true, Option.some.injEq] at h
        subst h
        simp [replaceOne, findOne, he, hrepl]
      · simp only [he, if_false] at h ⊢
        simp only [findOne, he, if_false]
        exact ih h

theorem updateOneInsights_of_none {docs : List ProfileDoc} {uid : String}
    (h : findOne docs uid = Option.none) (ins : PyVal) (now : Nat) :
    updateOneInsights docs uid ins now = (0, docs) := by
  induction docs with
  | nil => simp [updateOneInsights]
  | cons d tl ih =>
      simp only [findOne] at h
      by_cases hd : d.user_id = uid
      · simp [hd] at h
      · simp only [hd, if_false] at h
        simp [updateOneInsights, hd, ih h]

theorem updateOneInsights_of_some {docs : List ProfileDoc} {uid : String}
    {d : ProfileDoc} (h : findOne docs uid = Option.some d)
    (ins : PyVal) (now : Nat) :
    (updateOneInsights docs uid ins now).1 = 1 ∧
    findOne (updateOneInsights docs uid ins now).2 uid =
      Option.some { d with
                    additional_insights := ins
                    updated_at := now
                    version := d.version + 1 } := by
  induction docs with
  | nil => simp [findOne] at h
  | cons e tl ih =>
      simp only [findOne] at h
      by_cases he : e.user_id = uid
      · simp only [he, if_true, Option.some.injEq] at h
        subst h
        constructor
        · simp [updateOneInsights, he]
        · simp [updateOneInsights, he, findOne]
      · simp only [he, if_false] at h
        have := ih h
        constructor
        · simpa [updateOneInsights, he] using this.1
        · simpa [updateOneInsights, he, findOne] using this.2

theorem deleteOne_of_none {docs : List ProfileDoc} {uid : String}
    (h : findOne docs uid = Option.none) :
    deleteOne docs uid = (0, docs) := by
  induction docs with
  | nil => simp [deleteOne]
  | cons d tl ih =>
      simp only [findOne] at h
      by_cases hd : d.user_id = uid
      · simp [hd] at h
      · simp only [hd, if_false] at h
        simp [deleteOne, hd, ih h]

theorem store_of_none {db : DB} {uid : String}
    (h : findOne db.docs uid = Option.none)
    (pd ai ps : PyVal) (now : Nat) :
    store_finance_profile uid pd ai ps now db =
      (toString db.nextId,
       { docs := db.docs ++
           [{ oid := db.nextId
              user_id := uid
              finance_profile := pd
              additional_insights := pyOr ai (.dict .nil)
              profile_summary := ps
              created_at := now
              updated_at := now
              version := 1 }]
         nextId := db.nextId + 1 }) := by
  simp [store_finance_profile, h]

theorem store_of_some {db : DB} {uid : String} {d : ProfileDoc}
    (h : findOne db.docs uid = Option.some d)
    (pd ai ps : PyVal) (now : Nat) :
    (store_finance_profile uid pd ai ps now db).1 = toString d.oid ∧
    findOne (store_finance_profile uid pd ai ps now db).2.docs uid =
      Option.some
        { oid := d.oid
          user_id := uid
          finance_profile := pd
          additional_insights := pyOr ai (.dict .nil)
          profile_summary := ps
          created_at := d.created_at
          updated_at := now
          version := d.version + 1 } := by
  constructor
  · simp [store_finance_profile, h]
  · simp only [store_finance_profile, h]
    exact findOne_replaceOne h _ rfl

/-- **C1**: the first `store_finance_profile` for a `user_id` absent from the
collection inserts a document with `version = 1` and
`created_at = updated_at = now`; a second call for the same `user_id`
preserves the original `created_at`, sets `version := existing.version + 1`
(here 2), sets `updated_at` to the new time, replaces the whole body
(profile, insights, summary) and returns the same document id as the first
call; in general any upsert over an existing document `d` returns
`str(d._id)` and stores the replaced body with `version = d.version + 1`
and `created_at = d.created_at`. -/
theorem upsert_versioning_identity (db : DB) (uid : String)
    (pd1 ai1 ps1 pd2 ai2 ps2 : PyVal) (t1 t2 : Nat)
    (h : get_finance_profile uid db = Option.none) :
    (get_finance_profile uid (store_finance_profile uid pd1 ai1 ps1 t1 db).2 =
      Option.some
        { oid := db.nextId
          user_id := uid
          finance_profile := pd1
          additional_insights := pyOr ai1 (.dict .nil)
          profile_summary := ps1
          created_at := t1
          updated_at := t1
          version := 1 }) ∧
    (get_finance_profile uid (store_finance_profile uid pd2 ai2 ps2 t2
        (store_finance_profile uid pd1 ai1 ps1 t1 db).2).2 =
      Option.some
        { oid := db.nextId
          user_id := uid
          finance_profile := pd2
          additional_insights := pyOr ai2 (.dict .nil)
          profile_summary := ps2
          created_at := t1
          updated_at := t2
          version := 2 }) ∧
    ((store_finance_profile uid pd2 ai2 ps2 t2
        (store_finance_profile uid pd1 ai1 ps1 t1 db).2).1 =
      (store_finance_profile uid pd1 ai1 ps1 t1 db).1) ∧
    (∀ (db2 : DB) (d : ProfileDoc) (pd ai ps : PyVal) (t : Nat),
      get_finance_profile uid db2 = Option.some d →
      (store_finance_profile uid pd ai ps t db2).1 = toString d.oid ∧
      get_finance_profile uid (store_finance_profile uid pd ai ps t db2).2 =
        Option.some
          { oid := d.oid
            user_id := uid
            finance_profile := pd
            additional_insights := pyOr ai (.dict .nil)
            profile_summary := ps
            created_at := d.created_at
            updated_at := t
            version := d.version + 1 }) := by
  have h' : findOne db.docs uid = Option.none := h
  have hfind1 : findOne (store_finance_profile uid pd1 ai1 ps1 t1 db).2.docs uid =
      Option.some
        { oid := db.nextId
          user_id := uid
          finance_profile := pd1
          additional_insights := pyOr ai1 (.dict .nil)
          profile_summary := ps1
          created_at := t1
          updated_at := t1
          version := 1 } := by
    rw [store_of_none h' pd1 ai1 ps1 t1]
    rw [findOne_append_of_none h']
    simp [findOne]
  refine ⟨hfind1, ?_, ?_, ?_⟩
  · have h2 := (store_of_some hfind1 pd2 ai2 ps2 t2).2
    simpa using h2
  · have h2 := (store_of_some hfind1 pd2 ai2 ps2 t2).1
    rw [h2, store_of_none h' pd1 ai1 ps1 t1]
  · intro db2 d pd ai ps t hd
    exact store_of_some hd pd ai ps t

theorem upsert_versioning_identity_witness :
    (store_finance_profile "u" (.int 2) .none .none 7
        (store_finance_profile "u" (.int 1) .none .none 3 ⟨[], 0⟩).2).1 =
      (store_finance_profile "u" (.int 1) .none .none 3 ⟨[], 0⟩).1 ∧
    get_finance_profile "u" (store_finance_profile "u" (.int 2) .none .none 7
        (store_finance_profile "u" (.int 1) .none .none 3 ⟨[], 0⟩).2).2 =
      Option.some
        { oid := 0
          user_id := "u"
          finance_profile := .int 2
          additional_insights := .dict .nil
          profile_summary := .none
          created_at := 3
          updated_at := 7
          version := 2 } :=
  have h := upsert_versioning_identity ⟨[], 0⟩ "u"
    (.int 1) .none .none (.int 2) .none .none 3 7 rfl
  ⟨h.2.2.1, by simpa [pyOr, pyTruthy] using h.2.1⟩

/-- **C2**: `update_profile_insights` on an existing document replaces
`additional_insights` wholesale with the new value, increments `version` by
exactly 1, sets `updated_at := now`, leaves every other field (`_id`,
`user_id`, `finance_profile`, `profile_summary`, `created_at`) unchanged,
and returns `True`. -/
theorem update_profile_insights_full_replace (db : DB) (uid : String)
    (ins : PyVal) (now : Nat) (d : ProfileDoc)
    (h : get_finance_profile uid db = Option.some d) :
    (update_profile_insights uid ins now db).1 = true ∧
    get_finance_profile uid (update_profile_insights uid ins now db).2 =
      Option.some { d with
                    additional_insights := ins
                    updated_at := now
                    version := d.version + 1 } := by
  have h' : findOne db.docs uid = Option.some d := h
  have hu := updateOneInsights_of_some h' ins now
  constructor
  · simp [update_profile_insights, hu.1]
  · exact hu.2

theorem update_profile_insights_full_replace_witness :
    (update_profile_insights "u" (.dict (.cons "c" (.int 3) .nil)) 9
        ⟨[⟨0, "u", .none, .dict (.cons "a" (.int 1) (.cons "b" (.int 2) .nil)),
           .none, 2, 2, 1⟩], 1⟩).1 = true ∧
    get_finance_profile "u" (update_profile_insights "u"
        (.dict (.cons "c" (.int 3) .nil)) 9
        ⟨[⟨0, "u", .none, .dict (.cons "a" (.int 1) (.cons "b" (.int 2) .nil)),
           .none, 2, 2, 1⟩], 1⟩).2 =
      Option.some ⟨0, "u", .none, .dict (.cons "c" (.int 3) .nil), .none, 2, 9, 2⟩ := by
  simpa using update_profile_insights_full_replace
    ⟨[⟨0, "u", .none, .dict (.cons "a" (.int 1) (.cons "b" (.int 2) .nil)),
       .none, 2, 2, 1⟩], 1⟩
    "u" (.dict (.cons "c" (.int 3) .nil)) 9
    ⟨0, "u", .none, .dict (.cons "a" (.int 1) (.cons "b" (.int 2) .nil)),
     .none, 2, 2, 1⟩ rfl

/-- **C3**: for a `user_id` with no stored document, not-found is signalled
by return values, never exceptions: `get_finance_profile` returns `None`,
`delete_profile` returns `False`, `update_profile_insights` returns
`False`; and `update_profile_insights` returns `False` whenever the
underlying `update_one` modifies zero records. -/
theorem notfound_return_values (db : DB) (uid : String) (ins : PyVal)
    (now : Nat) (h : get_finance_profile uid db = Option.none) :
    get_finance_profile uid db = Option.none ∧
    (delete_profile uid db).1 = false ∧
    (update_profile_insights uid ins now db).1 = false ∧
    (∀ db2 : DB, (updateOneInsights db2.docs uid ins now).1 = 0 →
      (update_profile_insights uid ins now db2).1 = false) := by
  have h' : findOne db.docs uid = Option.none := h
  refine ⟨h, ?_, ?_, ?_⟩
  · simp [delete_profile, deleteOne_of_none h']
  · simp [update_profile_insights, updateOneInsights_of_none h' ins now]
  · intro db2 h0
    simp [update_profile_insights, h0]

theorem notfound_return_values_witness :
    get_finance_profile "nonexistent" ⟨[⟨0, "u", .none, .dict .nil, .none, 1, 1, 1⟩], 1⟩ =
      Option.none ∧
    (delete_profile "nonexistent" ⟨[⟨0, "u", .none, .dict .nil, .none, 1, 1, 1⟩], 1⟩).1 =
      false ∧
    (update_profile_insights "nonexistent" (.int 1) 5
      ⟨[⟨0, "u", .none, .dict .nil, .none, 1, 1, 1⟩], 1⟩).1 = false :=
  have h := notfound_return_values
    ⟨[⟨0, "u", .none, .dict .nil, .none, 1, 1, 1⟩], 1⟩ "nonexistent" (.int 1) 5 rfl
  ⟨h.1, h.2.1, h.2.2.1⟩

/-- **C8**: `get_profile_history` returns the single-element list holding
the current document when one exists for the `user_id`, the empty list when
none exists, and its result never depends on `limit` (including zero and
negative limits). -/
theorem get_profile_history_current_only (db : DB) (uid : String)
    (limit limit2 : Int) :
    (∀ d : ProfileDoc, get_finance_profile uid db = Option.some d →
      get_profile_history uid limit db = [d]) ∧
    (get_finance_profile uid db = Option.none →
      get_profile_history uid limit db = []) ∧
    get_profile_history uid limit db = get_profile_history uid limit2 db := by
  refine ⟨?_, ?_, ?_⟩
  · intro d hd
    simp [get_profile_history, hd]
  · intro hd
    simp [get_profile_history, hd]
  · rfl

theorem get_profile_history_current_only_witness :
    get_profile_history "u" (-3) ⟨[⟨0, "u", .none, .dict .nil, .none, 1, 1, 1⟩], 1⟩ =
      [⟨0, "u", .none, .dict .nil, .none, 1, 1, 1⟩] ∧
    get_profile_history "v" 0 ⟨[⟨0, "u", .none, .dict .nil, .none, 1, 1, 1⟩], 1⟩ = [] :=
  ⟨(get_profile_history_current_only _ "u" (-3) 10).1 _ rfl,
   (get_profile_history_current_only _ "v" 0 10).2.1 rfl⟩

/-- **C9**: `store_finance_profile` called with `additional_insights` equal
to `None` (the declared default) persists `{}` — never null — and with any
dict argument persists a dict; so documents created by the upsert always
hold a mapping in `additional_insights`. -/
theorem store_insights_never_null (db : DB) (uid : String)
    (pd ps ai : PyVal) (now : Nat)
    (hai : ai = PyVal.none ∨ ∃ kvs, ai = PyVal.dict kvs) :
    ∃ d : ProfileDoc,
      get_finance_profile uid (store_finance_profile uid pd ai ps now db).2 =
        Option.some d ∧
      isDict d.additional_insights = true ∧
      d.additional_insights ≠ PyVal.none ∧
      (ai = PyVal.none → d.additional_insights = PyVal.dict PyDict.nil) := by
  have hins : isDict (pyOr ai (.dict .nil)) = true ∧
      (ai = PyVal.none → pyOr ai (.dict .nil) = PyVal.dict PyDict.nil) := by
    rcases hai with rfl | ⟨kvs, rfl⟩
    · simp [pyOr, pyTruthy, isDict]
    · constructor
      · unfold pyOr
        split <;> simp [isDict]
      · intro hcontra
        simp at hcontra
  have key : ∃ d : ProfileDoc,
      get_finance_profile uid (store_finance_profile uid pd ai ps now db).2 =
        Option.some d ∧ d.additional_insights = pyOr ai (.dict .nil) := by
    cases hfind : findOne db.docs uid with
    | none =>
        refine ⟨{ oid := db.nextId
                  user_id := uid
                  finance_profile := pd
                  additional_insights := pyOr ai (.dict .nil)
                  profile_summary := ps
                  created_at := now
                  updated_at := now
                  version := 1 }, ?_, rfl⟩
        show findOne _ uid = _
        rw [store_of_none hfind pd ai ps now]
        rw [findOne_append_of_none hfind]
        simp [findOne]
    | some d =>
        exact ⟨_, (store_of_some hfind pd ai ps now).2, rfl⟩
  obtain ⟨d, hget, hd⟩ := key
  refine ⟨d, hget, ?_, ?_, ?_⟩
  · rw [hd]
    exact hins.1
  · rw [hd]
    intro hnull
    have h1 := hins.1
    rw [hnull] at h1
    simp [isDict] at h1
  · intro hainone
    rw [hd]
    exact hins.2 hainone

theorem store_insights_never_null_witness :
    ∃ d : ProfileDoc,
      get_finance_profile "u"
        (store_finance_profile "u" (.int 1) PyVal.none .none 4 ⟨[], 0⟩).2 =
        Option.some d ∧
      isDict d.additional_insights = true ∧
      d.additional_insights ≠ PyVal.none ∧
      (PyVal.none = PyVal.none → d.additional_insights = PyVal.dict PyDict.nil) :=
  store_insights_never_null ⟨[], 0⟩ "u" (.int 1) .none PyVal.none 4 (Or.inl rfl)

/-- Python whitespace, as removed by `str.strip()`. -/
def isPySpace (c : Char) : Bool :=
  c = ' ' || c = '\t' || c = '\n' || c = '\r' || c = '\x0b' || c = '\x0c'

/-- Python `s.strip()`: drop leading and trailing whitespace. -/
def pyStrip (s : List Char) : List Char :=
  ((s.dropWhile isPySpace).reverse.dropWhile isPySpace).reverse

/-- The 7-character fence opener `"```json"` tested by `startswith`. -/
def fenceOpen : List Char := "```json".toList

/-- The 3-character fence closer tested by `endswith`. -/
def fenceTicks : List Char := "```".toList

/-- The cleaning performed by `_parse_llm_json` (src/main.py lines 104-112):
strip, drop a leading `"```json"` (7 characters), drop a trailing `"```"`
(3 characters), strip again. -/
def cleanLlmText (text : List Char) : List Char :=
  let cleaned := pyStrip text
  let cleaned := if fenceOpen.isPrefixOf cleaned then cleaned.drop 7 else cleaned
  let cleaned := if fenceTicks.reverse.isPrefixOf cleaned.reverse then
                   cleaned.take (cleaned.length - 3)
                 else cleaned
  pyStrip cleaned

/-- The identical cleaning steps of `_parse_slm_response`
(src/services/finance_chat.py lines 66-73). -/
def cleanSlmText (response_text : List Char) : List Char :=
  let clean_text := pyStrip response_text
  let clean_text := if fenceOpen.isPrefixOf clean_text then clean_text.drop 7
                    else clean_text
  let clean_text := if fenceTicks.reverse.isPrefixOf clean_text.reverse then
                      clean_text.take (clean_text.length - 3)
                    else clean_text
  pyStrip clean_text

/-- `_parse_llm_json` (src/main.py lines 104-112): clean, then hand to the
external `json.loads` (a parameter here; `Option.none` models a raised
`JSONDecodeError`). -/
def parse_llm_json (loads : List Char → Option PyVal) (text : List Char) :
    Option PyVal :=
  loads (cleanLlmText text)

/-- Contiguous-substring test, Python `needle in haystack` on strings. -/
def subStringOf (needle : List Char) : List Char → Bool
  | [] => needle.isEmpty
  | c :: tl => needle.isPrefixOf (c :: tl) || subStringOf needle tl

/-- Python `key in v` for the values `json.loads` can return: dict key
membership, list/tuple element membership, substring test on strings, and a
`TypeError` (modelled as `.error`) otherwise. -/
def pyContains (v : PyVal) (key : String) : Except String Bool :=
  match v with
  | .dict kvs => .ok (kvs.lookup key).isSome
  | .list xs => .ok (PyList.mem (.str key) xs)
  | .tuple xs => .ok (PyList.mem (.str key) xs)
  | .str s => .ok (subStringOf key.toList s.toList)
  | _ => .error "TypeError: argument is not iterable"

/-- The required-key validation loop of `_parse_slm_response`
(src/services/finance_chat.py lines 78-84).  A `ValueError` raised for a
missing key is caught by the function's generic `except` and re-wrapped,
hence the message prefixes. -/
def checkRequiredKeys (parsed : PyVal) : List String → Except String PyVal
  | [] => .ok parsed
  | k :: rest =>
    match pyContains parsed k with
    | .error e => .error ("Failed to parse SLM response: " ++ e)
    | .ok false => .error ("Failed to parse SLM response: Missing required key: " ++ k)
    | .ok true => checkRequiredKeys parsed rest

/-- What `_parse_slm_response` does after `json.loads`: a parse failure is
re-raised as `ValueError("Invalid JSON response from SLM: ...")`, a parsed
value is checked for the required keys `FinanceProfile` and
`profile_summary`. -/
def slmValidate (parsed : Option PyVal) : Except String PyVal :=
  match parsed with
  | Option.none => .error "Invalid JSON response from SLM"
  | Option.some v => checkRequiredKeys v ["FinanceProfile", "profile_summary"]

/-- `_parse_slm_response` (src/services/finance_chat.py lines 53-92):
clean the response text, parse it with the external `json.loads`, and
validate the required top-level keys; all failures are `ValueError`s,
modelled as `.error`. -/
def parse_slm_response (loads : List Char → Option PyVal)
    (response_text : List Char) : Except String PyVal :=
  slmValidate (loads (cleanSlmText response_text))

/-- The markdown-fenced form of a payload `t`:
`"```json" + newline + t + newline + "```"`. -/
def fenceWrap (t : List Char) : List Char :=
  "```json\n".toList ++ t ++ "\n```".toList

theorem pyStrip_cons_of_space {c : Char} (h : isPySpace c = true)
    (s : List Char) : pyStrip (c :: s) = pyStrip s := by
  simp [pyStrip, List.dropWhile_cons, h]

theorem pyStrip_concat_of_space {c : Char} (h : isPySpace c = true)
    (s : List Char) : pyStrip (s ++ [c]) = pyStrip s := by
  unfold pyStrip
  rw [List.dropWhile_append]
  cases he : (s.dropWhile isPySpace).isEmpty
  · simp only [Bool.false_eq_true, if_false, List.reverse_append,
      List.reverse_cons, List.reverse_nil, List.nil_append, List.singleton_append,
      List.dropWhile_cons, h, if_true]
  · simp only [if_true]
    rw [List.isEmpty_iff] at he
    simp [he, List.dropWhile_cons, h]

theorem isPrefixOf_append_self (p l : List Char) : p.isPrefixOf (p ++ l) = true := by
  rw [List.isPrefixOf_iff_prefix]
  exact List.prefix_append ..

theorem dropWhile_append_of_fix {l₁ : List Char} (h : l₁.dropWhile isPySpace = l₁)
    (hne : l₁.isEmpty = false) (l₂ : List Char) :
    (l₁ ++ l₂).dropWhile isPySpace = l₁ ++ l₂ := by
  rw [List.dropWhile_append, h, hne]
  simp

theorem pyStrip_eq_self {s : List Char}
    (h1 : s.dropWhile isPySpace = s)
    (h2 : s.reverse.dropWhile isPySpace = s.reverse) :
    pyStrip s = s := by
  unfold pyStrip
  rw [h1, h2, List.reverse_reverse]

theorem fenceWrap_eq (t : List Char) :
    fenceWrap t = fenceOpen ++ ("\n".toList ++ (t ++ ("\n".toList ++ fenceTicks))) := by
  unfold fenceWrap
  rw [show "```json\n".toList = fenceOpen ++ "\n".toList from by decide,
      show "\n```".toList = "\n".toList ++ fenceTicks from by decide]
  simp

theorem pyStrip_fenceWrap (t : List Char) : pyStrip (fenceWrap t) = fenceWrap t := by
  refine pyStrip_eq_self ?_ ?_
  · rw [fenceWrap_eq]
    exact dropWhile_append_of_fix (by decide) (by decide) _
  · have hrev : (fenceWrap t).reverse =
        fenceTicks.reverse ++ ("\n".toList.reverse ++
          (t.reverse ++ ("\n".toList.reverse ++ fenceOpen.reverse))) := by
      rw [fenceWrap_eq]
      simp
    rw [hrev]
    exact dropWhile_append_of_fix (by decide) (by decide) _

theorem cleanLlm_fenceWrap (t : List Char) :
    cleanLlmText (fenceWrap t) = pyStrip t := by
  have hnl : isPySpace '\n' = true := by decide
  have hM : pyStrip (("\n".toList ++ t) ++ "\n".toList) = pyStrip t := by
    rw [show ("\n".toList ++ t) ++ "\n".toList = '\n' :: (t ++ ['\n']) from by simp,
        pyStrip_cons_of_space hnl, pyStrip_concat_of_space hnl]
  have hpre : fenceOpen.isPrefixOf (fenceWrap t) = true := by
    rw [fenceWrap_eq]
    exact isPrefixOf_append_self ..
  have hdrop : (fenceWrap t).drop 7 =
      (("\n".toList ++ t) ++ "\n".toList) ++ fenceTicks := by
    rw [fenceWrap_eq, show (7:Nat) = fenceOpen.length from by decide, List.drop_left]
    simp
  have hend : fenceTicks.reverse.isPrefixOf
      (((("\n".toList ++ t) ++ "\n".toList) ++ fenceTicks).reverse) = true := by
    rw [List.reverse_append]
    exact isPrefixOf_append_self ..
  have htake : ((("\n".toList ++ t) ++ "\n".toList) ++ fenceTicks).take
      (((("\n".toList ++ t) ++ "\n".toList) ++ fenceTicks).length - 3) =
      ("\n".toList ++ t) ++ "\n".toList := by
    have hlen : ((("\n".toList ++ t) ++ "\n".toList) ++ fenceTicks).length - 3 =
        (("\n".toList ++ t) ++ "\n".toList).length := by
      have h3 : fenceTicks.length = 3 := by decide
      simp [h3]
    rw [hlen, List.take_left]
  simp only [cleanLlmText]
  rw [pyStrip_fenceWrap, hpre]
  simp only [if_true]
  rw [hdrop, hend]
  simp only [if_true]
  rw [htake]
  exact hM

theorem cleanSlm_eq_cleanLlm (s : List Char) : cleanSlmText s = cleanLlmText s := rfl

theorem dropWhile_idem (p : Char → Bool) (s : List Char) :
    (s.dropWhile p).dropWhile p = s.dropWhile p := by
  induction s with
  | nil => rfl
  | cons c tl ih =>
      rw [List.dropWhile_cons]
      by_cases h : p c
      · simpa [h] using ih
      · simp [List.dropWhile_cons, h]

theorem head_dropWhile_false {p : Char → Bool} {s : List Char} {a : Char}
    {A' : List Char} (h : s.dropWhile p = a :: A') : p a = false := by
  induction s with
  | nil => simp [List.dropWhile] at h
  | cons c tl ih =>
      rw [List.dropWhile_cons] at h
      by_cases hc : p c
      · simp only [hc, if_true] at h
        exact ih h
      · simp [hc] at h
        rw [← h.1]
        simpa using hc

theorem dropWhile_append_singleton {p : Char → Bool} {a : Char}
    (ha : p a = false) (X : List Char) :
    ∃ C, (X ++ [a]).dropWhile p = C ++ [a] := by
  rw [List.dropWhile_append]
  by_cases h : (X.dropWhile p).isEmpty
  · refine ⟨[], ?_⟩
    simp [h, List.dropWhile_cons, ha]
  · refine ⟨X.dropWhile p, ?_⟩
    simp [h]

theorem pyStrip_idem (s : List Char) : pyStrip (pyStrip s) = pyStrip s := by
  cases hA : s.dropWhile isPySpace with
  | nil =>
      unfold pyStrip
      rw [hA]
      simp
  | cons a A' =>
      have ha : isPySpace a = false := head_dropWhile_false hA
      obtain ⟨C, hC⟩ := dropWhile_append_singleton ha A'.reverse
      unfold pyStrip
      rw [hA]
      rw [show (a :: A').reverse = A'.reverse ++ [a] from by simp]
      rw [hC]
      rw [show (C ++ [a]).reverse = a :: C.reverse from by simp]
      rw [List.dropWhile_cons]
      simp only [ha, Bool.false_eq_true, if_false]
      rw [show (a :: C.reverse).reverse = C ++ [a] from by simp]
      rw [← hC, dropWhile_idem, hC]
      simp

/-- **C6**: wrapping any payload `t` in a markdown JSON code fence
(`"```json" + newline + t + newline + "```"`) and passing it through the
response-cleaning parsers yields exactly the result of parsing the
unwrapped `t` directly: `_parse_llm_json` returns `loads t`, and
`_parse_slm_response` returns the required-key validation of `loads t`,
for every `json.loads` that is insensitive to surrounding whitespace. -/
theorem fence_stripping_parse_identical
    (loads : List Char → Option PyVal) (t : List Char)
    (hloads : ∀ s, loads (pyStrip s) = loads s) :
    parse_llm_json loads (fenceWrap t) = loads t ∧
    parse_slm_response loads (fenceWrap t) = slmValidate (loads t) := by
  have hclean : cleanLlmText (fenceWrap t) = pyStrip t := cleanLlm_fenceWrap t
  constructor
  · show loads (cleanLlmText (fenceWrap t)) = loads t
    rw [hclean, hloads]
  · show slmValidate (loads (cleanSlmText (fenceWrap t))) = slmValidate (loads t)
    rw [cleanSlm_eq_cleanLlm, hclean, hloads]

/-- A concrete whitespace-insensitive stand-in for `json.loads`, used only
to witness `fence_stripping_parse_identical`. -/
def loadsNum (s : List Char) : Option PyVal :=
  if pyStrip s = "1".toList then Option.some (.int 1) else Option.none

theorem fence_stripping_parse_identical_witness :
    parse_llm_json loadsNum (fenceWrap (" 1 ".toList)) = Option.some (.int 1) ∧
    parse_slm_response loadsNum (fenceWrap (" 1 ".toList)) =
      .error "Failed to parse SLM response: TypeError: argument is not iterable" := by
  have h := fence_stripping_parse_identical loadsNum (" 1 ".toList)
    (fun s => by simp [loadsNum, pyStrip_idem])
  refine ⟨h.1.trans ?_, h.2.trans ?_⟩ <;> rfl

/-- Python `v[key]` subscript on a `json.loads` result; `KeyError` /
`TypeError` are modelled as `.error`. -/
def pySubscript (v : PyVal) (key : String) : Except String PyVal :=
  match v with
  | .dict kvs =>
    match kvs.lookup key with
    | Option.some x => .ok x
    | Option.none => .error ("KeyError: " ++ key)
  | _ => .error "TypeError: value is not subscriptable"

/-- Python `v.get(key, default)`; the `AttributeError` raised on non-dicts
is modelled as `.error`. -/
def pyGetDefault (v : PyVal) (key : String) (dflt : PyVal) :
    Except String PyVal :=
  match v with
  | .dict kvs =>
    match kvs.lookup key with
    | Option.some x => .ok x
    | Option.none => .ok dflt
  | _ => .error "AttributeError: value has no attribute get"

/-- The dict `analyze_user_finances` returns: the success shape
(`user_id`, `document_id`, `finance_profile`, `additional_insights`,
`profile_summary`, `analysis_status = "success"`, lines 171-178) or the
failure shape (`user_id`, `error`, `analysis_status = "failed"`, lines
182-186). -/
inductive AnalyzeResult : Type where
  | success (user_id : String) (document_id : String)
      (finance_profile : PyVal) (additional_insights : PyVal)
      (profile_summary : PyVal) : AnalyzeResult
  | failed (user_id : String) (error : String) : AnalyzeResult
  deriving DecidableEq

/-- The `analysis_status` entry of the result dict. -/
def analysis_status : AnalyzeResult → String
  | .success .. => "success"
  | .failed .. => "failed"

/-- The body of `analyze_user_finances`'s `try` block
(src/services/finance_chat.py lines 105-178), with the external
collaborators as parameters: `loads` for `json.loads`, `validate` for
pydantic `FinanceProfile(**data).model_dump()` (`.error` models any raised
exception, caught by the inner `try` at lines 144-150), `response_text`
for the SLM completion text.  The incoming `user_data` only feeds the
prompt sent to the external provider, so it has no effect on the modelled
state beyond `response_text`. -/
def analyzeAttempt (loads : List Char → Option PyVal)
    (validate : PyVal → Except String PyVal) (response_text : List Char)
    (user_id : String) (now : Nat) (db : DB) :
    Except String (AnalyzeResult × DB) :=
  match parse_slm_response loads response_text with
  | .error e => .error e
  | .ok parsed_response =>
    match pySubscript parsed_response "FinanceProfile" with
    | .error e => .error e
    | .ok finance_profile_data =>
      let validated_profile_data :=
        match validate finance_profile_data with
        | .ok dumped => dumped
        | .error _ => finance_profile_data
      match pyGetDefault parsed_response "additional_insights" (.dict .nil) with
      | .error e => .error e
      | .ok additional_insights =>
        match pyGetDefault parsed_response "profile_summary" (.str "") with
        | .error e => .error e
        | .ok profile_summary =>
          let validated_profile_data := convert_decimals_to_float validated_profile_data
          let additional_insights := convert_decimals_to_float additional_insights
          let r := store_finance_profile user_id validated_profile_data
            additional_insights profile_summary now db
          .ok (.success user_id r.1 validated_profile_data additional_insights
                profile_summary, r.2)

/-- `analyze_user_finances` (src/services/finance_chat.py lines 94-186):
run the analysis and catch every exception into the failure dict, leaving
the collection as it was. -/
def analyze_user_finances (loads : List Char → Option PyVal)
    (validate : PyVal → Except String PyVal) (response_text : List Char)
    (user_id : String) (now : Nat) (db : DB) : AnalyzeResult × DB :=
  match analyzeAttempt loads validate response_text user_id now db with
  | .ok r => r
  | .error e => (.failed user_id e, db)

theorem store_get_finance_profile (db : DB) (uid : String)
    (pd ai ps : PyVal) (now : Nat) :
    ∃ d : ProfileDoc,
      get_finance_profile uid (store_finance_profile uid pd ai ps now db).2 =
        Option.some d ∧
      d.finance_profile = pd ∧
      d.additional_insights = pyOr ai (.dict .nil) ∧
      d.profile_summary = ps := by
  cases hfind : findOne db.docs uid with
  | none =>
      refine ⟨{ oid := db.nextId
                user_id := uid
                finance_profile := pd
                additional_insights := pyOr ai (.dict .nil)
                profile_summary := ps
                created_at := now
                updated_at := now
                version := 1 }, ?_, rfl, rfl, rfl⟩
      show findOne _ uid = _
      rw [store_of_none hfind pd ai ps now]
      rw [findOne_append_of_none hfind]
      simp [findOne]
  | some d =>
      exact ⟨_, (store_of_some hfind pd ai ps now).2, rfl, rfl, rfl⟩

/-- **C4**: when the provider text fails JSON parsing, or parses to a dict
lacking one of the required top-level keys (`FinanceProfile`,
`profile_summary`), `analyze_user_finances` writes nothing — the collection
is returned unchanged — and yields the failure dict with
`analysis_status = "failed"` and a nonempty error message, instead of
raising to its caller. -/
theorem analyze_failure_writes_nothing (loads : List Char → Option PyVal)
    (validate : PyVal → Except String PyVal) (response_text : List Char)
    (uid : String) (now : Nat) (db : DB)
    (h : loads (cleanSlmText response_text) = Option.none ∨
         ∃ kvs : PyDict, loads (cleanSlmText response_text) = Option.some (.dict kvs) ∧
           ((kvs.lookup "FinanceProfile").isSome = false ∨
            (kvs.lookup "profile_summary").isSome = false)) :
    (analyze_user_finances loads validate response_text uid now db).2 = db ∧
    analysis_status (analyze_user_finances loads validate response_text uid now db).1 =
      "failed" ∧
    ∃ e : String, (analyze_user_finances loads validate response_text uid now db).1 =
      .failed uid e ∧ e ≠ "" := by
  have hp : ∃ e, parse_slm_response loads response_text = .error e ∧ e ≠ "" := by
    rcases h with hnone | ⟨kvs, hsome, hmiss⟩
    · refine ⟨"Invalid JSON response from SLM", ?_, by decide⟩
      simp [parse_slm_response, hnone, slmValidate]
    · cases hfp : (kvs.lookup "FinanceProfile").isSome with
      | false =>
          refine ⟨"Failed to parse SLM response: Missing required key: FinanceProfile",
            ?_, by decide⟩
          simp [parse_slm_response, hsome, slmValidate, checkRequiredKeys, pyContains, hfp]
      | true =>
          have hps : (kvs.lookup "profile_summary").isSome = false := by
            rcases hmiss with h1 | h1
            · rw [hfp] at h1
              exact absurd h1 (by simp)
            · exact h1
          refine ⟨"Failed to parse SLM response: Missing required key: profile_summary",
            ?_, by decide⟩
          simp [parse_slm_response, hsome, slmValidate, checkRequiredKeys, pyContains,
            hfp, hps]
  obtain ⟨e, he, hne⟩ := hp
  have hrun : analyze_user_finances loads validate response_text uid now db =
      (.failed uid e, db) := by
    simp [analyze_user_finances, analyzeAttempt, he]
  rw [hrun]
  exact ⟨rfl, rfl, e, rfl, hne⟩

theorem analyze_failure_writes_nothing_witness :
    (analyze_user_finances (fun _ => Option.none) (fun v => .ok v)
      ("not json".toList) "u" 3 ⟨[], 0⟩).2 = (⟨[], 0⟩ : DB) ∧
    analysis_status (analyze_user_finances (fun _ => Option.none) (fun v => .ok v)
      ("not json".toList) "u" 3 ⟨[], 0⟩).1 = "failed" ∧
    ∃ e : String, (analyze_user_finances (fun _ => Option.none) (fun v => .ok v)
      ("not json".toList) "u" 3 ⟨[], 0⟩).1 = .failed "u" e ∧ e ≠ "" :=
  analyze_failure_writes_nothing (fun _ => Option.none) (fun v => .ok v)
    ("not json".toList) "u" 3 ⟨[], 0⟩ (Or.inl rfl)

/-- **C5**: when the provider output parses to a dict holding the required
keys, `analyze_user_finances` completes the write whatever pydantic says:
if `FinanceProfile(**data)` raises, the raw uncoerced mapping is stored as
`finance_profile` (exactly raw when it is `Decimal`-free, as every
`json.loads` result is; in general after the `Decimal`→`float` storage
conversion) and the result still has `analysis_status = "success"`; if
validation succeeds, the model-dumped profile (after the same conversion)
is stored instead. -/
theorem analyze_validation_fallback (loads : List Char → Option PyVal)
    (validate : PyVal → Except String PyVal) (response_text : List Char)
    (uid : String) (now : Nat) (db : DB) (kvs : PyDict) (fp ps : PyVal)
    (hparse : loads (cleanSlmText response_text) = Option.some (.dict kvs))
    (hfp : kvs.lookup "FinanceProfile" = Option.some fp)
    (hps : kvs.lookup "profile_summary" = Option.some ps) :
    analysis_status (analyze_user_finances loads validate response_text uid now db).1 =
      "success" ∧
    ∃ d : ProfileDoc,
      get_finance_profile uid
        (analyze_user_finances loads validate response_text uid now db).2 =
        Option.some d ∧
      (∀ err, validate fp = .error err →
        d.finance_profile = convert_decimals_to_float fp ∧
        (noDecimal fp = true → d.finance_profile = fp)) ∧
      (∀ out, validate fp = .ok out →
        d.finance_profile = convert_decimals_to_float out) := by
  have hparse2 : parse_slm_response loads response_text = .ok (.dict kvs) := by
    simp [parse_slm_response, hparse, slmValidate, checkRequiredKeys, pyContains,
      hfp, hps]
  have hsub : pySubscript (.dict kvs) "FinanceProfile" = .ok fp := by
    simp [pySubscript, hfp]
  obtain ⟨ai, hai⟩ : ∃ ai, pyGetDefault (.dict kvs) "additional_insights" (.dict .nil) =
      .ok ai := by
    cases h2 : kvs.lookup "additional_insights" with
    | none => exact ⟨.dict .nil, by simp [pyGetDefault, h2]⟩
    | some x => exact ⟨x, by simp [pyGetDefault, h2]⟩
  have hpsget : pyGetDefault (.dict kvs) "profile_summary" (.str "") = .ok ps := by
    simp [pyGetDefault, hps]
  cases hv : validate fp with
  | error err =>
      have hrun : analyze_user_finances loads validate response_text uid now db =
          (.success uid
            (store_finance_profile uid (convert_decimals_to_float fp)
              (convert_decimals_to_float ai) ps now db).1
            (convert_decimals_to_float fp) (convert_decimals_to_float ai) ps,
           (store_finance_profile uid (convert_decimals_to_float fp)
              (convert_decimals_to_float ai) ps now db).2) := by
        simp [analyze_user_finances, analyzeAttempt, hparse2, hsub, hai, hpsget, hv]
      obtain ⟨d, hd, hdf, _, _⟩ := store_get_finance_profile db uid
        (convert_decimals_to_float fp) (convert_decimals_to_float ai) ps now
      rw [hrun]
      refine ⟨rfl, d, hd, ?_, ?_⟩
      · intro err2 _
        refine ⟨hdf, ?_⟩
        intro hnd
        rw [hdf, conv_fix_of_noDecimal fp hnd]
      · intro out hout
        cases hout
  | ok out =>
      have hrun : analyze_user_finances loads validate response_text uid now db =
          (.success uid
            (store_finance_profile uid (convert_decimals_to_float out)
              (convert_decimals_to_float ai) ps now db).1
            (convert_decimals_to_float out) (convert_decimals_to_float ai) ps,
           (store_finance_profile uid (convert_decimals_to_float out)
              (convert_decimals_to_float ai) ps now db).2) := by
        simp [analyze_user_finances, analyzeAttempt, hparse2, hsub, hai, hpsget, hv]
      obtain ⟨d, hd, hdf, _, _⟩ := store_get_finance_profile db uid
        (convert_decimals_to_float out) (convert_decimals_to_float ai) ps now
      rw [hrun]
      refine ⟨rfl, d, hd, ?_, ?_⟩
      · intro err2 herr
        cases herr
      · intro out2 hout
        cases hout
        exact hdf

theorem analyze_validation_fallback_witness :
    analysis_status (analyze_user_finances
      (fun _ => Option.some (.dict (.cons "FinanceProfile" (.dict .nil)
        (.cons "profile_summary" (.str "ok") .nil))))
      (fun _ => .error "validation failed") ("irrelevant".toList)
      "u" 3 ⟨[], 0⟩).1 = "success" ∧
    ∃ d : ProfileDoc,
      get_finance_profile "u"
        (analyze_user_finances
          (fun _ => Option.some (.dict (.cons "FinanceProfile" (.dict .nil)
            (.cons "profile_summary" (.str "ok") .nil))))
          (fun _ => .error "validation failed") ("irrelevant".toList)
          "u" 3 ⟨[], 0⟩).2 = Option.some d ∧
      (∀ err, (fun (_ : PyVal) => (.error "validation failed" : Except String PyVal))
          (.dict .nil) = .error err →
        d.finance_profile = convert_decimals_to_float (.dict .nil) ∧
        (noDecimal (.dict .nil) = true → d.finance_profile = .dict .nil)) ∧
      (∀ out, (fun (_ : PyVal) => (.error "validation failed" : Except String PyVal))
          (.dict .nil) = .ok out →
        d.finance_profile = convert_decimals_to_float out) :=
  analyze_validation_fallback
    (fun _ => Option.some (.dict (.cons "FinanceProfile" (.dict .nil)
      (.cons "profile_summary" (.str "ok") .nil))))
    (fun _ => .error "validation failed") ("irrelevant".toList)
    "u" 3 ⟨[], 0⟩
    (.cons "FinanceProfile" (.dict .nil) (.cons "profile_summary" (.str "ok") .nil))
    (.dict .nil) (.str "ok") rfl rfl rfl

/-- Python `v is None`. -/
def isNone : PyVal → Bool
  | .none => true
  | _ => false

/-- `isinstance(v, (dict, list))`, the container test of `_remove_nulls`. -/
def isDictOrList : PyVal → Bool
  | .dict _ => true
  | .list _ => true
  | _ => false

/-- Python `len(v)` for sized values (only applied under container guards). -/
def pyLen : PyVal → Nat
  | .dict kvs => kvs.length
  | .list xs => xs.length
  | .tuple xs => xs.length
  | .str s => s.length
  | _ => 0

/-- The second dict comprehension of `_remove_nulls`: drop entries whose
(already cleaned) value is an empty dict or list. -/
def dropEmptyEntries : PyDict → PyDict
  | .nil => .nil
  | .cons k v tl =>
    if isDictOrList v && decide (pyLen v = 0) then dropEmptyEntries tl
    else .cons k v (dropEmptyEntries tl)

/- `_remove_nulls` (src/main.py lines 82-93).  The dict branch first drops
`None`-valued entries and recursively cleans the remaining values
(`cleanDictEntries`), then drops entries whose cleaned value is an empty
dict or list (`dropEmptyEntries`).  The list branch keeps an element when
it is not `None` and, if it is a dict or list, its cleaned form is
nonempty, mapping the recursive clean over what is kept
(`cleanListEntries`).  Everything else (scalars, including tuples) is
returned unchanged. -/
mutual

def remove_nulls : PyVal → PyVal
  | .dict kvs => .dict (dropEmptyEntries (cleanDictEntries kvs))
  | .list xs => .list (cleanListEntries xs)
  | v => v

def cleanDictEntries : PyDict → PyDict
  | .nil => .nil
  | .cons k v tl =>
    if isNone v then cleanDictEntries tl
    else .cons k (remove_nulls v) (cleanDictEntries tl)

def cleanListEntries : PyList → PyList
  | .nil => .nil
  | .cons v tl =>
    if isNone v || (isDictOrList v && decide (pyLen (remove_nulls v) = 0)) then
      cleanListEntries tl
    else .cons (remove_nulls v) (cleanListEntries tl)

end

/- `noNullInside v`: no dict entry or list element anywhere inside `v` is
`None` (tuples are opaque to `_remove_nulls` and are treated as scalars). -/
mutual

def noNullInside : PyVal → Bool
  | .dict kvs => noNullInsideDict kvs
  | .list xs => noNullInsideList xs
  | _ => true

def noNullInsideDict : PyDict → Bool
  | .nil => true
  | .cons _ v tl => (!isNone v && noNullInside v) && noNullInsideDict tl

def noNullInsideList : PyList → Bool
  | .nil => true
  | .cons v tl => (!isNone v && noNullInside v) && noNullInsideList tl

end

/- `noEmptyInside v`: no dict entry or list element anywhere inside `v` is
an empty dict or an empty list. -/
mutual

def noEmptyInside : PyVal → Bool
  | .dict kvs => noEmptyInsideDict kvs
  | .list xs => noEmptyInsideList xs
  | _ => true

def noEmptyInsideDict : PyDict → Bool
  | .nil => true
  | .cons _ v tl =>
    (!(isDictOrList v && decide (pyLen v = 0)) && noEmptyInside v) &&
      noEmptyInsideDict tl

def noEmptyInsideList : PyList → Bool
  | .nil => true
  | .cons v tl =>
    (!(isDictOrList v && decide (pyLen v = 0)) && noEmptyInside v) &&
      noEmptyInsideList tl

end

/-- Values of the entries of a dict all satisfy `noEmptyInside`. -/
def dictValuesNoEmpty : PyDict → Bool
  | .nil => true
  | .cons _ v tl => noEmptyInside v && dictValuesNoEmpty tl

theorem isNone_remove_nulls : ∀ v : PyVal, isNone v = false →
    isNone (remove_nulls v) = false
  | .none, h => by simp [isNone] at h
  | .bool _, _ => rfl
  | .int _, _ => rfl
  | .dec _, _ => rfl
  | .float _, _ => rfl
  | .str _, _ => rfl
  | .list _, _ => rfl
  | .tuple _, _ => rfl
  | .dict _, _ => rfl

theorem isDictOrList_remove_nulls :
    ∀ v : PyVal, isDictOrList (remove_nulls v) = isDictOrList v
  | .none => rfl
  | .bool _ => rfl
  | .int _ => rfl
  | .dec _ => rfl
  | .float _ => rfl
  | .str _ => rfl
  | .list _ => rfl
  | .tuple _ => rfl
  | .dict _ => rfl

theorem noNull_dropEmpty : ∀ l : PyDict, noNullInsideDict l = true →
    noNullInsideDict (dropEmptyEntries l) = true
  | .nil, _ => rfl
  | .cons k v tl, h => by
      simp only [noNullInsideDict, Bool.and_eq_true] at h
      cases hc : (isDictOrList v && decide (pyLen v = 0)) with
      | true => simp [dropEmptyEntries, hc, noNull_dropEmpty tl h.2]
      | false =>
          simp [dropEmptyEntries, hc, noNullInsideDict, noNull_dropEmpty tl h.2,
            h.1.1, h.1.2]

mutual

theorem noNull_remove_nulls : ∀ v : PyVal, noNullInside (remove_nulls v) = true
  | .none => rfl
  | .bool _ => rfl
  | .int _ => rfl
  | .dec _ => rfl
  | .float _ => rfl
  | .str _ => rfl
  | .tuple _ => rfl
  | .dict kvs => by
      simp only [remove_nulls, noNullInside]
      exact noNull_dropEmpty _ (noNull_cleanDict kvs)
  | .list xs => by
      simp only [remove_nulls, noNullInside]
      exact noNull_cleanList xs

theorem noNull_cleanDict : ∀ kvs : PyDict,
    noNullInsideDict (cleanDictEntries kvs) = true
  | .nil => rfl
  | .cons k v tl => by
      cases hn : isNone v with
      | true => simp [cleanDictEntries, hn, noNull_cleanDict tl]
      | false =>
          simp [cleanDictEntries, hn, noNullInsideDict, noNull_cleanDict tl,
            isNone_remove_nulls v hn, noNull_remove_nulls v]

theorem noNull_cleanList : ∀ xs : PyList,
    noNullInsideList (cleanListEntries xs) = true
  | .nil => rfl
  | .cons v tl => by
      cases hc : (isNone v || (isDictOrList v && decide (pyLen (remove_nulls v) = 0))) with
      | true => simp [cleanListEntries, hc, noNull_cleanList tl]
      | false =>
          have hn : isNone v = false := by
            cases hn2 : isNone v
            · rfl
            · rw [hn2] at hc
              simp at hc
          simp [cleanListEntries, hc, noNullInsideList, noNull_cleanList tl,
            isNone_remove_nulls v hn, noNull_remove_nulls v]

end

theorem noEmpty_dropEmpty : ∀ l : PyDict, dictValuesNoEmpty l = true →
    noEmptyInsideDict (dropEmptyEntries l) = true
  | .nil, _ => rfl
  | .cons k v tl, h => by
      simp only [dictValuesNoEmpty, Bool.and_eq_true] at h
      cases hc : (isDictOrList v && decide (pyLen v = 0)) with
      | true => simp [dropEmptyEntries, hc, noEmpty_dropEmpty tl h.2]
      | false =>
          simp [dropEmptyEntries, hc, noEmptyInsideDict, noEmpty_dropEmpty tl h.2, h.1]

mutual

theorem noEmpty_remove_nulls : ∀ v : PyVal, noEmptyInside (remove_nulls v) = true
  | .none => rfl
  | .bool _ => rfl
  | .int _ => rfl
  | .dec _ => rfl
  | .float _ => rfl
  | .str _ => rfl
  | .tuple _ => rfl
  | .dict kvs => by
      simp only [remove_nulls, noEmptyInside]
      exact noEmpty_dropEmpty _ (noEmpty_cleanDict kvs)
  | .list xs => by
      simp only [remove_nulls, noEmptyInside]
      exact noEmpty_cleanList xs

theorem noEmpty_cleanDict : ∀ kvs : PyDict,
    dictValuesNoEmpty (cleanDictEntries kvs) = true
  | .nil => rfl
  | .cons k v tl => by
      cases hn : isNone v with
      | true => simp [cleanDictEntries, hn, noEmpty_cleanDict tl]
      | false =>
          simp [cleanDictEntries, hn, dictValuesNoEmpty, noEmpty_cleanDict tl,
            noEmpty_remove_nulls v]

theorem noEmpty_cleanList : ∀ xs : PyList,
    noEmptyInsideList (cleanListEntries xs) = true
  | .nil => rfl
  | .cons v tl => by
      cases hc : (isNone v || (isDictOrList v && decide (pyLen (remove_nulls v) = 0))) with
      | true => simp [cleanListEntries, hc, noEmpty_cleanList tl]
      | false =>
          have hsplit : (isDictOrList v && decide (pyLen (remove_nulls v) = 0)) = false := by
            cases h2 : (isDictOrList v && decide (pyLen (remove_nulls v) = 0))
            · rfl
            · rw [h2] at hc
              simp at hc
          have hkeep : (isDictOrList (remove_nulls v) &&
              decide (pyLen (remove_nulls v) = 0)) = false := by
            rw [isDictOrList_remove_nulls]
            exact hsplit
          simp [cleanListEntries, hc, noEmptyInsideList, noEmpty_cleanList tl,
            hkeep, noEmpty_remove_nulls v]

end

theorem dropEmpty_fix : ∀ l : PyDict, noEmptyInsideDict l = true →
    dropEmptyEntries l = l
  | .nil, _ => rfl
  | .cons k v tl, h => by
      simp only [noEmptyInsideDict, Bool.and_eq_true] at h
      have hc : (isDictOrList v && decide (pyLen v = 0)) = false := by
        have hb := h.1.1
        cases hx : (isDictOrList v && decide (pyLen v = 0))
        · rfl
        · rw [hx] at hb
          simp at hb
      simp [dropEmptyEntries, hc, dropEmpty_fix tl h.2]

mutual

theorem remove_nulls_fix : ∀ v : PyVal, noNullInside v = true →
    noEmptyInside v = true → remove_nulls v = v
  | .none, _, _ => rfl
  | .bool _, _, _ => rfl
  | .int _, _, _ => rfl
  | .dec _, _, _ => rfl
  | .float _, _, _ => rfl
  | .str _, _, _ => rfl
  | .tuple _, _, _ => rfl
  | .dict kvs, h1, h2 => by
      simp only [noNullInside] at h1
      simp only [noEmptyInside] at h2
      simp only [remove_nulls]
      rw [cleanDict_fix kvs h1 h2, dropEmpty_fix kvs h2]
  | .list xs, h1, h2 => by
      simp only [noNullInside] at h1
      simp only [noEmptyInside] at h2
      simp only [remove_nulls]
      rw [cleanList_fix xs h1 h2]

theorem cleanDict_fix : ∀ kvs : PyDict, noNullInsideDict kvs = true →
    noEmptyInsideDict kvs = true → cleanDictEntries kvs = kvs
  | .nil, _, _ => rfl
  | .cons k v tl, h1, h2 => by
      simp only [noNullInsideDict, Bool.and_eq_true] at h1
      simp only [noEmptyInsideDict, Bool.and_eq_true] at h2
      have hn : isNone v = false := by simpa using h1.1.1
      simp [cleanDictEntries, hn, remove_nulls_fix v h1.1.2 h2.1.2,
        cleanDict_fix tl h1.2 h2.2]

theorem cleanList_fix : ∀ xs : PyList, noNullInsideList xs = true →
    noEmptyInsideList xs = true → cleanListEntries xs = xs
  | .nil, _, _ => rfl
  | .cons v tl, h1, h2 => by
      simp only [noNullInsideList, Bool.and_eq_true] at h1
      simp only [noEmptyInsideList, Bool.and_eq_true] at h2
      have hn : isNone v = false := by simpa using h1.1.1
      have hrv : remove_nulls v = v := remove_nulls_fix v h1.1.2 h2.1.2
      have hc2 : (isDictOrList v && decide (pyLen v = 0)) = false := by
        have hb := h2.1.1
        cases hx : (isDictOrList v && decide (pyLen v = 0))
        · rfl
        · rw [hx] at hb
          simp at hb
      have hc : (isNone v ||
          (isDictOrList v && decide (pyLen (remove_nulls v) = 0))) = false := by
        rw [hn, hrv, hc2]
        rfl
      simp only [cleanListEntries]
      rw [hc]
      simp only [Bool.false_eq_true, if_false]
      rw [hrv, cleanList_fix tl h1.2 h2.2]

end

/-- **C7**: the output of `_remove_nulls` contains no `None` entry and no
empty dict/list inside any container; inputs already free of nulls and
empty containers — including falsy-but-meaningful scalars such as `0` and
`False` — are returned unchanged; and the documented example
`{"a": None, "b": {"c": None}, "d": [1, 2]}` reduces to `{"d": [1, 2]}`. -/
theorem remove_nulls_spec (v : PyVal) :
    noNullInside (remove_nulls v) = true ∧
    noEmptyInside (remove_nulls v) = true ∧
    (noNullInside v = true → noEmptyInside v = true → remove_nulls v = v) ∧
    remove_nulls (.int 0) = .int 0 ∧
    remove_nulls (.bool false) = .bool false ∧
    remove_nulls (.dict (.cons "a" .none (.cons "b"
        (.dict (.cons "c" .none .nil))
        (.cons "d" (.list (.cons (.int 1) (.cons (.int 2) .nil))) .nil)))) =
      .dict (.cons "d" (.list (.cons (.int 1) (.cons (.int 2) .nil))) .nil) :=
  ⟨noNull_remove_nulls v, noEmpty_remove_nulls v, remove_nulls_fix v,
   rfl, rfl, by decide⟩

theorem remove_nulls_spec_witness :
    remove_nulls (.dict (.cons "d"
        (.list (.cons (.int 0) (.cons (.bool false) .nil))) .nil)) =
      .dict (.cons "d" (.list (.cons (.int 0) (.cons (.bool false) .nil))) .nil) :=
  (remove_nulls_spec (.dict (.cons "d"
      (.list (.cons (.int 0) (.cons (.bool false) .nil))) .nil))).2.2.1
    (by decide) (by decide)
